import Mathlib

/-!
Verification development for the Linguisty voice/text translation client
(src/App.tsx, two variants separated in the file; src/components; src/unnamed).
The gapless streaming audio subsystem, transcript accumulation, session
lifecycle and history bookkeeping are embedded shallowly below; times and
durations are rationals, machine state is explicit records, and the
callback-driven handlers become state-transition functions.
-/

/-- Value of one base64 alphabet character.
Modelled from the spec: the repository imports decode from utils/audioUtils,
which is not present under src/; the spec describes decoding of base64 PCM
payloads that may fail on malformed input. -/
def b64Val (c : Char) : Option Nat :=
  if 'A' ≤ c ∧ c ≤ 'Z' then some (c.toNat - 65)
  else if 'a' ≤ c ∧ c ≤ 'z' then some (c.toNat - 97 + 26)
  else if '0' ≤ c ∧ c ≤ '9' then some (c.toNat - 48 + 52)
  else if c = '+' then some 62
  else if c = '/' then some 63
  else none

/-- Modelled from the spec: block-wise base64 decoding of a character list into
bytes, failing on any character outside the alphabet, on misplaced padding, or
on a length that is not a multiple of four. -/
def b64Chunks : List Char → Option (List Nat)
  | [] => some []
  | a :: b :: c :: d :: rest =>
    match b64Val a, b64Val b with
    | some va, some vb =>
      if c = '=' then
        if d = '=' ∧ rest = [] then some [va * 4 + vb / 16] else none
      else
        match b64Val c with
        | some vc =>
          if d = '=' then
            if rest = [] then some [va * 4 + vb / 16, (vb % 16) * 16 + vc / 4] else none
          else
            match b64Val d with
            | some vd =>
              match b64Chunks rest with
              | some bs =>
                some ((va * 4 + vb / 16) :: ((vb % 16) * 16 + vc / 4) :: ((vc % 4) * 64 + vd) :: bs)
              | none => none
            | none => none
        | none => none
    | _, _ => none
  | _ => none

/-- Modelled from the spec: decode (utils/audioUtils, not under src/) turns a
base64 string into raw PCM bytes and fails on malformed input. -/
def decode (s : String) : Option (List Nat) :=
  b64Chunks s.data

/-- Fixed output sample rate, from src/App.tsx (both variants). -/
def SAMPLE_RATE_OUT : Nat := 24000

/-- Modelled from the spec: decodeAudioData (utils/audioUtils, not under src/)
interprets the bytes as mono 16-bit PCM at the output sample rate and yields a
playable buffer whose duration in seconds is sampleCount / sampleRate; it
fails on an empty or odd-length byte sequence (no whole sample). -/
def decodeAudioData (bytes : List Nat) : Option ℚ :=
  if bytes.length = 0 ∨ bytes.length % 2 = 1 then none
  else some (((bytes.length : ℚ) / 2) / (SAMPLE_RATE_OUT : ℚ))

/-- One active playback handle: scheduled start time and buffer duration,
as created by ctx.createBufferSource and source.start in src/App.tsx. -/
structure ScheduledSource where
  startTime : ℚ
  duration : ℚ
deriving DecidableEq

/-- Playback scheduler state of variant 1 of src/App.tsx: nextStartTimeRef,
audioSourcesRef and the isSpeaking flag. -/
structure SchedState where
  nextStartTime : ℚ
  sources : List ScheduledSource
  isSpeaking : Bool
deriving DecidableEq

/-- Scheduler state at page load: clock zero, no sources, not speaking. -/
def initSched : SchedState := ⟨0, [], false⟩

/-- stopAllAudio of src/App.tsx lines 94-101: calls stop on every source in
the active set (returned as the second component, the list of sources the
stop call was issued on), clears the set, resets nextStartTimeRef to 0 and
clears the speaking flag. -/
def stopAllAudio (st : SchedState) : SchedState × List ScheduledSource :=
  (⟨0, [], false⟩, st.sources)

/-- playPcmData of src/App.tsx lines 103-125: decodes the base64 payload and,
on success, schedules a source at max(nextStartTime, ctx.currentTime),
advances the clock by the buffer duration and registers the source; the
whole body is inside try/catch, and on any decode failure only the speaking
flag is cleared (the catch branch), so the function never throws. -/
def playPcmData (st : SchedState) (now : ℚ) (base64Data : String) : SchedState :=
  match (decode base64Data).bind decodeAudioData with
  | some dur =>
    let startTime := max st.nextStartTime now
    { nextStartTime := startTime + dur
      sources := st.sources ++ [⟨startTime, dur⟩]
      isSpeaking := true }
  | none => { st with isSpeaking := false }

/-- Iterated playPcmData over segments arriving in order, each with the output
device time observed at its enqueue. -/
def playPcmDataRun (st : SchedState) : List (ℚ × String) → SchedState
  | [] => st
  | (now, seg) :: rest => playPcmDataRun (playPcmData st now seg) rest

/-- Playback scheduler state of variant 2 of src/App.tsx: nextStartTimeRef and
sourcesRef (no speaking flag there). -/
structure Sched2State where
  nextStartTime : ℚ
  sources : List ScheduledSource
deriving DecidableEq

/-- playAudioBytes of src/App.tsx lines 553-569: bumps nextStartTimeRef to
max(nextStartTime, ctx.currentTime) before decoding, then decodes and
schedules. There is no try/catch, so a decode failure rejects the call: the
Bool component records whether the call rejects (true exactly when the decode
fails), and in that case no source has been scheduled while the clock bump
has already happened. -/
def playAudioBytes (st : Sched2State) (now : ℚ) (base64Audio : String) : Sched2State × Bool :=
  let st1 : Sched2State := { st with nextStartTime := max st.nextStartTime now }
  match (decode base64Audio).bind decodeAudioData with
  | some dur =>
    ({ nextStartTime := st1.nextStartTime + dur
       sources := st1.sources ++ [⟨st1.nextStartTime, dur⟩] }, false)
  | none => (st1, true)

/-- Scheduler invariant: every registered source ends no later than the clock
and has nonnegative duration, and consecutive sources neither overlap nor go
backwards in time. -/
def SchedInvariant (st : SchedState) : Prop :=
  (∀ src ∈ st.sources, src.startTime + src.duration ≤ st.nextStartTime ∧ 0 ≤ src.duration) ∧
  List.Chain' (fun a b => a.startTime + a.duration ≤ b.startTime ∧ a.startTime ≤ b.startTime)
    st.sources

/-- Earliest run of three consecutive nonempty parts in a list of strings.
Models the scan of the unanchored JS regex over the pipe-separated parts of
the buffer: since a capture group cannot contain the delimiter, the regex
matches exactly at the first position where three consecutive parts are all
nonempty, and each raw capture equals that part up to leading whitespace
absorbed by a whitespace run in the pattern, which the subsequent trim in
src/App.tsx cancels. -/
def firstTriple : List String → Option (String × String × String)
  | [] => none
  | a :: rest =>
    match rest with
    | b :: c :: _ =>
      if a ≠ "" ∧ b ≠ "" ∧ c ≠ "" then some (a, b, c) else firstTriple rest
    | _ => none

/-- Accumulating scan splitting a character list at every pipe character. -/
def splitOnPipeAux : List Char → List Char → List String
  | [], acc => [String.mk acc.reverse]
  | '|' :: rest, acc => String.mk acc.reverse :: splitOnPipeAux rest []
  | c :: rest, acc => splitOnPipeAux rest (c :: acc)

/-- The pipe-separated parts of a string, as the JS split on the delimiter
would produce them (an empty string yields one empty part). -/
def splitOnPipe (s : String) : List String :=
  splitOnPipeAux s.data []

/-- The match of fullText against the three-field pipe-delimited pattern in
handleLiveMessage, src/App.tsx line 226. -/
def matchThreeFields (s : String) : Option (String × String × String) :=
  firstTriple (splitOnPipe s)

/-- One translation record, the ExtendedDiscoveryEntry of src/App.tsx
(DiscoveryEntry of src/unnamed/part_000 plus translation, targetLangName and
the origin tag); the Date.now identifier is carried as a number. -/
structure ExtendedDiscoveryEntry where
  id : Nat
  languageName : String
  snippet : String
  translation : String
  targetLangName : String
  timestamp : Nat
  confidence : String
  type : String
deriving DecidableEq

/-- History write of src/App.tsx lines 177-181 and 239-243: prepend the new
entry and truncate with slice(0, 10). -/
def updateHistory (entry : ExtendedDiscoveryEntry) (prev : List ExtendedDiscoveryEntry) :
    List ExtendedDiscoveryEntry :=
  (entry :: prev).take 10

/-- History load of src/App.tsx line 83: the persisted list is truncated with
slice(0, 10) before being adopted. -/
def loadHistory (saved : List ExtendedDiscoveryEntry) : List ExtendedDiscoveryEntry :=
  saved.take 10

/-- State of variant 1 of src/App.tsx: the React state and the refs that the
handlers read and write. Resource handles (stream, contexts, session,
animation frame) are identifiers, present exactly when the ref is non-null. -/
structure AppState where
  isListening : Bool
  targetLang : String
  lastResult : Option ExtendedDiscoveryEntry
  history : List ExtendedDiscoveryEntry
  volume : ℚ
  freqData : List ℚ
  error : Option String
  sched : SchedState
  session : Option Nat
  stream : Option Nat
  inputCtx : Option Nat
  animFrame : Option Nat
  buffer : String
deriving DecidableEq

/-- Audio branch of handleLiveMessage, src/App.tsx line 222: inbound audio is
handed to playPcmData; nothing else changes. -/
def applyAudio (s : AppState) (now : ℚ) : Option String → AppState
  | some b64 => { s with sched := playPcmData s.sched now b64 }
  | none => s

/-- Transcription branch of handleLiveMessage, src/App.tsx line 223: partial
output text is appended to currentOutputTranscriptionRef. -/
def applyTranscription (s : AppState) : Option String → AppState
  | some t => { s with buffer := s.buffer ++ t }
  | none => s

/-- Turn-complete branch of handleLiveMessage, src/App.tsx lines 224-246: the
accumulated buffer is matched against the three-field format; on a match a
voice record with the trimmed fields is stored as lastResult and prepended to
the capped history; in both cases the buffer is reset to empty. -/
def applyTurnComplete (s : AppState) (tNow : Nat) : AppState :=
  match matchThreeFields s.buffer with
  | some (a, b, c) =>
    let entry : ExtendedDiscoveryEntry :=
      ⟨tNow, a.trim, b.trim, c.trim, s.targetLang, tNow, "High", "voice"⟩
    { s with lastResult := some entry
             history := updateHistory entry s.history
             buffer := "" }
  | none => { s with buffer := "" }

/-- Container message for the live-session callback, with the four fields
handleLiveMessage of src/App.tsx inspects. -/
structure LiveServerMessage where
  audioData : Option String
  outputTranscription : Option String
  turnComplete : Bool
  interrupted : Bool
deriving DecidableEq

/-- handleLiveMessage of src/App.tsx lines 220-248, in statement order: play
inbound audio, append partial transcription, process turn completion, then
cancel playback on an interruption signal. -/
def handleLiveMessage (s : AppState) (now : ℚ) (tNow : Nat) (msg : LiveServerMessage) :
    AppState :=
  let s1 := applyAudio s now msg.audioData
  let s2 := applyTranscription s1 msg.outputTranscription
  let s3 := if msg.turnComplete then applyTurnComplete s2 tNow else s2
  if msg.interrupted then { s3 with sched := (stopAllAudio s3.sched).1 } else s3

/-- stopListening of src/App.tsx lines 210-218: each teardown step is guarded
on its ref being non-null (the session close is additionally wrapped in
try/catch and the context close swallows its rejection), the refs are nulled,
and the listening state, volume and bars are reset. The animation-frame ref
is cancelled but not nulled, exactly as in the source. -/
def stopListening (s : AppState) : AppState :=
  { s with session := none
           stream := none
           inputCtx := none
           isListening := false
           volume := 0
           freqData := List.replicate 12 0 }

/-- startListening of src/App.tsx lines 250-316, outcome-level: it clears the
error, cancels all playback, clears the last result, and then, with no check
of the current listening state, acquires a fresh microphone stream, input
context and remote session, overwriting whatever handles were stored; on a
microphone or connection failure it records the error and is not listening. -/
def startListening (s : AppState) (micOk : Bool) (streamId ctxId sessId : Nat) : AppState :=
  let s0 := { s with error := none, sched := (stopAllAudio s.sched).1, lastResult := none }
  if micOk then
    { s0 with stream := some streamId
              inputCtx := some ctxId
              session := some sessId
              isListening := true }
  else
    { s0 with error := some "Permission denied.", isListening := false }

/-- The microphone button of src/App.tsx line 362: its click handler is
stopListening while listening and startListening otherwise. -/
def toggleMicButton (s : AppState) (micOk : Bool) (streamId ctxId sessId : Nat) : AppState :=
  if s.isListening then stopListening s else startListening s micOk streamId ctxId sessId

/-- One transcription list row as pushed by variant 2 of src/App.tsx lines
689-690 (the random id suffix is elided; it does not affect any property). -/
structure TranscriptionEntry where
  id : String
  speaker : String
  text : String
  timestamp : Nat
deriving DecidableEq

/-- State of variant 2 of src/App.tsx: React state and refs read and written
by its handlers. -/
structure V2State where
  isListening : Bool
  stream : Option Nat
  inputCtx : Option Nat
  outputCtx : Option Nat
  session : Option Nat
  animFrame : Option Nat
  sched : Sched2State
  transcriptions : List TranscriptionEntry
  inBuf : String
  outBuf : String
  detectedLanguage : Option String
  volume : ℚ
  error : Option String
deriving DecidableEq

/-- Scan for the closing bracket of the leading language tag: the lazy dot
group of the regex matches any characters except a newline up to the first
closing bracket. -/
def scanLangTag : List Char → List Char → Option String
  | [], _ => none
  | ']' :: _, acc => some (String.mk acc.reverse)
  | '\n' :: _, _ => none
  | c :: rest, acc => scanLangTag rest (c :: acc)

/-- The language-tag match of variant 2, src/App.tsx line 683: an anchored
match of an opening bracket followed by a lazy group up to a closing
bracket. -/
def langMatch (s : String) : Option String :=
  match s.data with
  | '[' :: rest => scanLangTag rest []
  | _ => none

/-- Input-transcription branch of the variant-2 onmessage handler,
src/App.tsx lines 672-674. -/
def applyInputTr (s : V2State) : Option String → V2State
  | some t => { s with inBuf := s.inBuf ++ t }
  | none => s

/-- Output-transcription branch of the variant-2 onmessage handler,
src/App.tsx lines 675-677. -/
def applyOutputTr (s : V2State) : Option String → V2State
  | some t => { s with outBuf := s.outBuf ++ t }
  | none => s

/-- Turn-complete branch of the variant-2 onmessage handler, src/App.tsx
lines 679-696: trim both buffers, record a detected language when the input
starts with a bracketed tag, push rows for the nonempty texts, and reset
both buffers. -/
def applyTurnV2 (s : V2State) (tNow : Nat) : V2State :=
  let inText := s.inBuf.trim
  let outText := s.outBuf.trim
  let s1 := match langMatch inText with
    | some l => { s with detectedLanguage := some l }
    | none => s
  let s2 := if inText ≠ "" ∨ outText ≠ "" then
      { s1 with transcriptions := s1.transcriptions ++
          (if inText ≠ "" then
            [⟨"in-" ++ toString tNow, "user", inText, tNow⟩] else []) ++
          (if outText ≠ "" then
            [⟨"out-" ++ toString tNow, "model", outText, tNow⟩] else []) }
    else s1
  { s2 with inBuf := "", outBuf := "" }

/-- Container message for the variant-2 live callback, with the five fields
its onmessage handler inspects. -/
structure V2Message where
  audioData : Option String
  inputTranscription : Option String
  outputTranscription : Option String
  turnComplete : Bool
  interrupted : Bool
deriving DecidableEq

/-- The part of the variant-2 onmessage handler after the audio await,
src/App.tsx lines 672-702: transcription accumulation, turn completion, and
the inline interruption branch that stops and clears all sources and resets
the clock to zero. -/
def onMessageV2Tail (s : V2State) (tNow : Nat) (msg : V2Message) : V2State :=
  let s2 := applyOutputTr (applyInputTr s msg.inputTranscription) msg.outputTranscription
  let s3 := if msg.turnComplete then applyTurnV2 s2 tNow else s2
  if msg.interrupted then { s3 with sched := ⟨0, []⟩ } else s3

/-- onmessage of variant 2, src/App.tsx lines 666-703: inbound audio is
awaited through playAudioBytes first; because that call has no catch, a
decode failure rejects the handler (Bool component true) and skips the rest
of the handler, with the scheduler left as playAudioBytes left it. -/
def onMessageV2 (s : V2State) (now : ℚ) (tNow : Nat) (msg : V2Message) : V2State × Bool :=
  match msg.audioData with
  | some b64 =>
    match playAudioBytes s.sched now b64 with
    | (sch, true) => ({ s with sched := sch }, true)
    | (sch, false) => (onMessageV2Tail { s with sched := sch } tNow msg, false)
  | none => (onMessageV2Tail s tNow msg, false)

/-- stopSession of src/App.tsx lines 527-551: every teardown step is guarded
on its ref, the refs are nulled, in-flight sources are stopped and the set
cleared (the clock is not reset there), and listening state, volume and
detected language are reset. The animation-frame ref is cancelled but not
nulled, as in the source. -/
def stopSession (s : V2State) : V2State :=
  { s with session := none
           stream := none
           inputCtx := none
           outputCtx := none
           sched := ⟨s.sched.nextStartTime, []⟩
           isListening := false
           volume := 0
           detectedLanguage := none }

/-- startSession of src/App.tsx lines 616-733, outcome-level: it clears the
error, shows the detecting placeholder, and then, with no check of the
current listening state, acquires a fresh stream, both contexts and a remote
session, overwriting the stored handles; on failure it records the error. -/
def startSession (s : V2State) (micOk : Bool) (streamId inCtxId outCtxId sessId : Nat) :
    V2State :=
  let s0 := { s with error := none, detectedLanguage := some "Detecting..." }
  if micOk then
    { s0 with stream := some streamId
              inputCtx := some inCtxId
              outputCtx := some outCtxId
              session := some sessId
              isListening := true }
  else
    { s0 with error := some "Microphone access denied or connection failed." }

/-- toggleListening of src/App.tsx line 735: stopSession while listening,
startSession otherwise. -/
def toggleListening (s : V2State) (micOk : Bool) (streamId inCtxId outCtxId sessId : Nat) :
    V2State :=
  if s.isListening then stopSession s
  else startSession s micOk streamId inCtxId outCtxId sessId

/-- One outbound encoded frame: the 16-bit samples and the declared input
sample rate. -/
structure EncodedFrame where
  samples : List Int
  sampleRate : Nat
deriving DecidableEq

/-- Modelled from the spec: createBlob (utils/audioUtils, not under src/)
converts one floating-point frame in the range -1 to 1 into 16-bit PCM
tagged with the 16 kHz input rate; exactly one EncodedFrame per input
frame. -/
def createBlob (inputData : List ℚ) : EncodedFrame :=
  ⟨inputData.map (fun x => Rat.floor (x * 32768)), 16000⟩

/-- Observable state of the capture path: every frame the encoder produced,
the frames the transport accepted, any user-surfaced error, and any retry
queue (the source has none). -/
structure CaptureState where
  encoded : List EncodedFrame
  sent : List EncodedFrame
  surfacedError : Option String
  retryQueue : List EncodedFrame
deriving DecidableEq

/-- The onaudioprocess handler of src/App.tsx lines 275-279 and 653-659: it
encodes the frame with createBlob and hands it to the session send inside a
promise continuation, so the handler itself returns without raising; a send
that is rejected or whose transport is not ready leaves no trace (variant 1
swallows the rejection with catch, and neither variant surfaces an error,
queues the frame, or retries). -/
def onAudioProcess (st : CaptureState) (inputData : List ℚ) (transportOk : Bool) :
    CaptureState :=
  let pcmBlob := createBlob inputData
  { st with encoded := st.encoded ++ [pcmBlob]
            sent := if transportOk then st.sent ++ [pcmBlob] else st.sent }

/-- Iterated onaudioprocess over the frames delivered by the capture
subsystem, each with whether the transport accepted its send. -/
def captureRun (st : CaptureState) : List (List ℚ × Bool) → CaptureState
  | [] => st
  | (frame, ok) :: rest => captureRun (onAudioProcess st frame ok) rest

/-- Capture state before any frame was delivered. -/
def emptyCapture : CaptureState := ⟨[], [], none, []⟩

/-- An idle variant-1 application state used in concrete evaluations. -/
def idleApp : AppState :=
  { isListening := false, targetLang := "English", lastResult := none, history := []
    volume := 0, freqData := List.replicate 12 0, error := none, sched := initSched
    session := none, stream := none, inputCtx := none, animFrame := none, buffer := "" }

/-- A variant-1 application state with a live capture pipeline. -/
def activeApp : AppState :=
  { idleApp with isListening := true, stream := some 1, inputCtx := some 2, session := some 3 }

/-- An idle variant-2 application state used in concrete evaluations. -/
def idleV2 : V2State :=
  { isListening := false, stream := none, inputCtx := none, outputCtx := none
    session := none, animFrame := none, sched := ⟨0, []⟩, transcriptions := []
    inBuf := "", outBuf := "", detectedLanguage := none, volume := 0, error := none }

/-- A variant-2 application state with a live capture pipeline. -/
def activeV2 : V2State :=
  { idleV2 with isListening := true, stream := some 1, inputCtx := some 2
                outputCtx := some 3, session := some 4 }

/-- Any duration produced by the modelled decoder is nonnegative. -/
theorem decodeAudioData_nonneg (bytes : List Nat) (d : ℚ)
    (h : decodeAudioData bytes = some d) : 0 ≤ d := by
  unfold decodeAudioData at h
  split at h
  · exact absurd h (by simp)
  · rw [Option.some_inj] at h
    subst h
    positivity

/-- Any duration produced by decoding a segment is nonnegative. -/
theorem decodedDur_nonneg (seg : String) (d : ℚ)
    (h : (decode seg).bind decodeAudioData = some d) : 0 ≤ d := by
  rcases Option.bind_eq_some.mp h with ⟨bytes, _, hb⟩
  exact decodeAudioData_nonneg bytes d hb

/-- One playPcmData step preserves the scheduler invariant. -/
theorem playPcmData_invariant (st : SchedState) (now : ℚ) (seg : String)
    (h : SchedInvariant st) : SchedInvariant (playPcmData st now seg) := by
  unfold playPcmData
  cases hdec : (decode seg).bind decodeAudioData with
  | none =>
    obtain ⟨h1, h2⟩ := h
    exact ⟨h1, h2⟩
  | some dur =>
    have hd : 0 ≤ dur := decodedDur_nonneg seg dur hdec
    obtain ⟨hbound, hchain⟩ := h
    constructor
    · intro src hsrc
      rcases List.mem_append.mp hsrc with hin | hnew
      · obtain ⟨hb1, hb2⟩ := hbound src hin
        refine ⟨?_, hb2⟩
        calc src.startTime + src.duration ≤ st.nextStartTime := hb1
          _ ≤ max st.nextStartTime now := le_max_left _ _
          _ ≤ max st.nextStartTime now + dur := le_add_of_nonneg_right hd
      · rw [List.mem_singleton] at hnew
        subst hnew
        exact ⟨le_refl _, hd⟩
    · rw [List.chain'_append]
      refine ⟨hchain, List.chain'_singleton _, ?_⟩
      intro x hx y hy
      have hxmem : x ∈ st.sources := List.mem_of_mem_getLast? hx
      rw [List.head?_cons, Option.mem_def, Option.some_inj] at hy
      subst hy
      obtain ⟨hb1, hb2⟩ := hbound x hxmem
      constructor
      · exact le_trans hb1 (le_max_left _ _)
      · calc x.startTime ≤ x.startTime + x.duration := le_add_of_nonneg_right hb2
          _ ≤ st.nextStartTime := hb1
          _ ≤ max st.nextStartTime now := le_max_left _ _

/-- A whole run of playPcmData preserves the scheduler invariant. -/
theorem playPcmDataRun_invariant (inputs : List (ℚ × String)) (st : SchedState)
    (h : SchedInvariant st) : SchedInvariant (playPcmDataRun st inputs) := by
  induction inputs generalizing st with
  | nil => exact h
  | cons p rest ih =>
    obtain ⟨now, seg⟩ := p
    exact ih (playPcmData st now seg) (playPcmData_invariant st now seg h)

/-- The initial scheduler state satisfies the invariant. -/
theorem initSched_invariant : SchedInvariant initSched := by
  constructor
  · intro src hsrc
    simp [initSched] at hsrc
  · simp [initSched]

/-- The triple scan succeeds exactly when some position in the list carries
three consecutive nonempty parts. -/
theorem firstTriple_spec (l : List String) :
    (firstTriple l).isSome ↔
      ∃ i a b c, l.get? i = some a ∧ l.get? (i + 1) = some b ∧ l.get? (i + 2) = some c ∧
        a ≠ "" ∧ b ≠ "" ∧ c ≠ "" := by
  induction l with
  | nil =>
    simp only [firstTriple, Option.isSome_none, Bool.false_eq_true, false_iff]
    rintro ⟨i, a, b, c, h1, _, _, _⟩
    simp at h1
  | cons a tl ih =>
    cases tl with
    | nil =>
      simp only [firstTriple, Option.isSome_none, Bool.false_eq_true, false_iff]
      rintro ⟨i, a', b', c', h1, h2, _, _⟩
      have : ([a] : List String).get? (i + 1) = none := by
        rw [List.get?_eq_none]
        simp
      rw [this] at h2
      exact Option.noConfusion h2
    | cons b tl2 =>
      cases tl2 with
      | nil =>
        simp only [firstTriple, Option.isSome_none, Bool.false_eq_true, false_iff]
        rintro ⟨i, a', b', c', h1, h2, h3, _⟩
        have : ([a, b] : List String).get? (i + 2) = none := by
          rw [List.get?_eq_none]
          simp
        rw [this] at h3
        exact Option.noConfusion h3
      | cons c rest =>
        by_cases hcond : a ≠ "" ∧ b ≠ "" ∧ c ≠ ""
        · constructor
          · intro _
            exact ⟨0, a, b, c, rfl, rfl, rfl, hcond.1, hcond.2.1, hcond.2.2⟩
          · intro _
            simp [firstTriple, hcond]
        · have hlhs : firstTriple (a :: b :: c :: rest) = firstTriple (b :: c :: rest) := by
            simp [firstTriple, hcond]
          rw [hlhs, ih]
          constructor
          · rintro ⟨i, a', b', c', h1, h2, h3, n1, n2, n3⟩
            refine ⟨i + 1, a', b', c', ?_, ?_, ?_, n1, n2, n3⟩
            · simpa using h1
            · simpa using h2
            · simpa using h3
          · rintro ⟨i, a', b', c', h1, h2, h3, n1, n2, n3⟩
            cases i with
            | zero =>
              simp at h1 h2 h3
              subst h1
              subst h2
              subst h3
              exact absurd ⟨n1, n2, n3⟩ hcond
            | succ j =>
              refine ⟨j, a', b', c', ?_, ?_, ?_, n1, n2, n3⟩
              · simpa using h1
              · simpa using h2
              · simpa using h3

/-- The audio branch changes only the scheduler component. -/
theorem applyAudio_eq (s : AppState) (now : ℚ) (ad : Option String) :
    ∃ sch, applyAudio s now ad = { s with sched := sch } := by
  cases ad with
  | none => exact ⟨s.sched, rfl⟩
  | some b64 => exact ⟨_, rfl⟩

/-- The transcription branch appends the carried text (or nothing) to the
buffer and changes nothing else. -/
theorem applyTranscription_eq (s : AppState) (ot : Option String) :
    applyTranscription s ot = { s with buffer := s.buffer ++ ot.getD "" } := by
  cases ot with
  | none =>
    show s = { s with buffer := s.buffer ++ "" }
    rw [String.append_empty]
  | some t => rfl

/-- The turn-complete branch changes only the last result, the history and
the buffer. -/
theorem applyTurnComplete_eq (s : AppState) (tNow : Nat) :
    ∃ lr hist,
      applyTurnComplete s tNow = { s with lastResult := lr, history := hist, buffer := "" } := by
  unfold applyTurnComplete
  cases h : matchThreeFields s.buffer with
  | none => exact ⟨s.lastResult, s.history, rfl⟩
  | some t =>
    obtain ⟨a, b, c⟩ := t
    exact ⟨_, _, rfl⟩


/-- handleLiveMessage changes at most the scheduler, the last result, the
history and the transcript buffer. -/
theorem handleLiveMessage_eqd (s : AppState) (now : ℚ) (tNow : Nat) (msg : LiveServerMessage) :
    ∃ sch lr hist buf,
      handleLiveMessage s now tNow msg =
        { s with sched := sch, lastResult := lr, history := hist, buffer := buf } := by
  obtain ⟨ad, ot, tc, ir⟩ := msg
  cases ad <;> cases ot <;> cases tc <;> cases ir <;>
    simp only [handleLiveMessage, applyAudio, applyTranscription, applyTurnComplete] <;>
    (repeat' split) <;>
    exact ⟨_, _, _, _, rfl⟩

/-- With a turn-complete signal the transcript buffer is reset to empty. -/
theorem handleLiveMessage_turn_buffer (s : AppState) (now : ℚ) (tNow : Nat)
    (msg : LiveServerMessage) (h : msg.turnComplete = true) :
    (handleLiveMessage s now tNow msg).buffer = "" := by
  obtain ⟨ad, ot, tc, ir⟩ := msg
  cases tc with
  | false => simp at h
  | true =>
    cases ad <;> cases ot <;> cases ir <;>
      simp only [handleLiveMessage, applyAudio, applyTranscription, applyTurnComplete] <;>
      (repeat' split) <;> simp_all

/-- Without a turn-complete signal the buffer only accumulates the partial
transcription carried by the message. -/
theorem handleLiveMessage_noturn_buffer (s : AppState) (now : ℚ) (tNow : Nat)
    (msg : LiveServerMessage) (h : msg.turnComplete = false) :
    (handleLiveMessage s now tNow msg).buffer = s.buffer ++ msg.outputTranscription.getD "" := by
  obtain ⟨ad, ot, tc, ir⟩ := msg
  cases tc with
  | true => simp at h
  | false =>
    cases ad <;> cases ot <;> cases ir <;>
      simp [handleLiveMessage, applyAudio, applyTranscription, String.append_empty]

/-- A completed turn whose accumulated text matches the three-field format
stores the record with the trimmed fields and prepends it to the capped
history. -/
theorem handleLiveMessage_turn_some (s : AppState) (now : ℚ) (tNow : Nat)
    (msg : LiveServerMessage) (h : msg.turnComplete = true) (a b c : String)
    (hm : matchThreeFields (s.buffer ++ msg.outputTranscription.getD "") = some (a, b, c)) :
    (handleLiveMessage s now tNow msg).lastResult =
      some ⟨tNow, a.trim, b.trim, c.trim, s.targetLang, tNow, "High", "voice"⟩ ∧
    (handleLiveMessage s now tNow msg).history =
      updateHistory ⟨tNow, a.trim, b.trim, c.trim, s.targetLang, tNow, "High", "voice"⟩
        s.history := by
  obtain ⟨ad, ot, tc, ir⟩ := msg
  cases tc with
  | false => simp at h
  | true =>
    cases ad <;> cases ot <;> cases ir <;>
      simp only [Option.getD_some, Option.getD_none, String.append_empty] at hm <;>
      simp [handleLiveMessage, applyAudio, applyTranscription, applyTurnComplete, hm]

/-- A completed turn whose accumulated text does not match the format leaves
the last result and the history unchanged. -/
theorem handleLiveMessage_turn_none (s : AppState) (now : ℚ) (tNow : Nat)
    (msg : LiveServerMessage) (h : msg.turnComplete = true)
    (hm : matchThreeFields (s.buffer ++ msg.outputTranscription.getD "") = none) :
    (handleLiveMessage s now tNow msg).lastResult = s.lastResult ∧
    (handleLiveMessage s now tNow msg).history = s.history := by
  obtain ⟨ad, ot, tc, ir⟩ := msg
  cases tc with
  | false => simp at h
  | true =>
    cases ad <;> cases ot <;> cases ir <;>
      simp only [Option.getD_some, Option.getD_none, String.append_empty] at hm <;>
      simp [handleLiveMessage, applyAudio, applyTranscription, applyTurnComplete, hm]

/-- A successfully decoded segment is scheduled at the maximum of the clock
and the device time, the clock advances by its duration, and the source is
registered. -/
theorem playPcmData_some (st : SchedState) (now : ℚ) (seg : String) (dur : ℚ)
    (hdec : (decode seg).bind decodeAudioData = some dur) :
    playPcmData st now seg =
      { nextStartTime := max st.nextStartTime now + dur
        sources := st.sources ++ [⟨max st.nextStartTime now, dur⟩]
        isSpeaking := true } := by
  unfold playPcmData
  rw [hdec]

/-- A segment that fails to decode only clears the speaking flag. -/
theorem playPcmData_none (st : SchedState) (now : ℚ) (seg : String)
    (hdec : (decode seg).bind decodeAudioData = none) :
    playPcmData st now seg = { st with isSpeaking := false } := by
  unfold playPcmData
  rw [hdec]

/-- In the second variant a segment that fails to decode leaves the bumped
clock, schedules nothing, and the call rejects. -/
theorem playAudioBytes_none (st : Sched2State) (now : ℚ) (seg : String)
    (hdec : (decode seg).bind decodeAudioData = none) :
    playAudioBytes st now seg =
      ({ st with nextStartTime := max st.nextStartTime now }, true) := by
  unfold playAudioBytes
  rw [hdec]

/-- A well-formed eight-character segment decodes to six zero bytes, three
samples, with duration three samples over the output rate. -/
theorem decode_AAAAAAAA : (decode "AAAAAAAA").bind decodeAudioData = some (1/8000 : ℚ) := by
  have h1 : decode "AAAAAAAA" = some [0, 0, 0, 0, 0, 0] := by decide
  rw [h1]
  show decodeAudioData [0, 0, 0, 0, 0, 0] = some (1/8000 : ℚ)
  simp [decodeAudioData, SAMPLE_RATE_OUT]
  norm_num

/-- A payload with characters outside the base64 alphabet fails to decode. -/
theorem decode_malformed : (decode "%%%").bind decodeAudioData = none := by
  have h1 : decode "%%%" = none := by decide
  rw [h1]
  rfl

/-- A failed enqueue does not disturb how any later segment is handled. -/
theorem playPcmData_failed_then (st : SchedState) (now : ℚ) (seg : String)
    (hdec : (decode seg).bind decodeAudioData = none) (now2 : ℚ) (seg2 : String) :
    playPcmData (playPcmData st now seg) now2 seg2 = playPcmData st now2 seg2 := by
  rw [playPcmData_none st now seg hdec]
  unfold playPcmData
  cases h2 : (decode seg2).bind decodeAudioData with
  | none => rfl
  | some dur2 => rfl

/-- Claim C1: every enqueued segment that decodes is scheduled to start at
max(PlaybackClock, current output-device time) at the moment of enqueue,
after the enqueue the clock equals that start plus the segment duration, and
over any run from the initial state the scheduled sources have
non-decreasing start times with each start no earlier than the previous
start plus the previous duration: no overlap and no gap beyond the device
time. -/
theorem C1_gapless_scheduling :
    (∀ (st : SchedState) (now : ℚ) (seg : String) (dur : ℚ),
      (decode seg).bind decodeAudioData = some dur →
      playPcmData st now seg =
        { nextStartTime := max st.nextStartTime now + dur
          sources := st.sources ++ [⟨max st.nextStartTime now, dur⟩]
          isSpeaking := true }) ∧
    (∀ inputs : List (ℚ × String),
      List.Chain'
        (fun a b => a.startTime + a.duration ≤ b.startTime ∧ a.startTime ≤ b.startTime)
        (playPcmDataRun initSched inputs).sources) := by
  constructor
  · exact playPcmData_some
  · intro inputs
    exact (playPcmDataRun_invariant inputs initSched initSched_invariant).2

/-- Claim C1 witness: a concrete enqueue and a concrete two-segment run. -/
theorem C1_gapless_scheduling_witness :
    playPcmData initSched 0 "AAAAAAAA" =
      { nextStartTime := max (0:ℚ) 0 + 1/8000
        sources := [⟨max (0:ℚ) 0, 1/8000⟩]
        isSpeaking := true } ∧
    List.Chain'
      (fun a b => a.startTime + a.duration ≤ b.startTime ∧ a.startTime ≤ b.startTime)
      (playPcmDataRun initSched [(0, "AAAAAAAA"), (0, "AAAAAAAA")]).sources := by
  refine ⟨C1_gapless_scheduling.1 initSched 0 "AAAAAAAA" (1/8000) decode_AAAAAAAA, ?_⟩
  exact C1_gapless_scheduling.2 [(0, "AAAAAAAA"), (0, "AAAAAAAA")]

/-- Claim C2: cancelling playback issues a stop on exactly the sources of
the active set, clears the set, resets the clock to zero and the speaking
flag, and the next segment enqueued afterwards (at a nonnegative device
time) is scheduled to start exactly at the current device time. -/
theorem C2_cancelAll_resets (st : SchedState) (now : ℚ) (seg : String) (dur : ℚ)
    (hnow : 0 ≤ now) (hdec : (decode seg).bind decodeAudioData = some dur) :
    (stopAllAudio st).2 = st.sources ∧
    (stopAllAudio st).1.sources = [] ∧
    (stopAllAudio st).1.nextStartTime = 0 ∧
    (stopAllAudio st).1.isSpeaking = false ∧
    (playPcmData (stopAllAudio st).1 now seg).sources = [⟨now, dur⟩] ∧
    (playPcmData (stopAllAudio st).1 now seg).nextStartTime = now + dur := by
  rw [playPcmData_some (stopAllAudio st).1 now seg dur hdec]
  refine ⟨rfl, rfl, rfl, rfl, ?_, ?_⟩
  · show [(⟨max 0 now, dur⟩ : ScheduledSource)] = [⟨now, dur⟩]
    rw [max_eq_right hnow]
  · show max 0 now + dur = now + dur
    rw [max_eq_right hnow]

/-- Claim C2 witness: cancelling a state with a stale future clock and one
active source, then enqueueing at device time three. -/
theorem C2_cancelAll_resets_witness :
    (stopAllAudio ⟨5, [⟨0, 5⟩], true⟩).2 = [⟨0, 5⟩] ∧
    (stopAllAudio ⟨5, [⟨0, 5⟩], true⟩).1.sources = [] ∧
    (stopAllAudio ⟨5, [⟨0, 5⟩], true⟩).1.nextStartTime = 0 ∧
    (stopAllAudio ⟨5, [⟨0, 5⟩], true⟩).1.isSpeaking = false ∧
    (playPcmData (stopAllAudio ⟨5, [⟨0, 5⟩], true⟩).1 3 "AAAAAAAA").sources = [⟨3, 1/8000⟩] ∧
    (playPcmData (stopAllAudio ⟨5, [⟨0, 5⟩], true⟩).1 3 "AAAAAAAA").nextStartTime =
      3 + 1/8000 := by
  exact C2_cancelAll_resets ⟨5, [⟨0, 5⟩], true⟩ 3 "AAAAAAAA" (1/8000) (by norm_num)
    decode_AAAAAAAA

/-- Claim C3 counterexample: in the playAudioBytes variant an undecodable
segment makes the enqueue call reject, so the decode failure does propagate
an exception out of the scheduler there. -/
theorem C3_decode_failure_counterexample :
    (playAudioBytes ⟨0, []⟩ 0 "%%%").2 = true := by
  rw [playAudioBytes_none ⟨0, []⟩ 0 "%%%" decode_malformed]

/-- Claim C3 amended: in the playPcmData variant a decode failure is caught,
the segment is discarded, and later segments are decoded and played exactly
as if the failed one had never arrived; in the playAudioBytes variant the
decode failure propagates out of the enqueue call, though no source is
scheduled, and in its surrounding onmessage handler the rejection skips the
rest of the handler while leaving the session, the stream and the listening
state untouched. -/
theorem C3_decode_failure_amended :
    (∀ (st : SchedState) (now : ℚ) (seg : String),
      (decode seg).bind decodeAudioData = none →
      playPcmData st now seg = { st with isSpeaking := false }) ∧
    (∀ (st : SchedState) (now : ℚ) (seg : String),
      (decode seg).bind decodeAudioData = none →
      ∀ (now2 : ℚ) (seg2 : String),
        playPcmData (playPcmData st now seg) now2 seg2 = playPcmData st now2 seg2) ∧
    (∀ (st : Sched2State) (now : ℚ) (seg : String),
      (decode seg).bind decodeAudioData = none →
      (playAudioBytes st now seg).2 = true ∧
      (playAudioBytes st now seg).1.sources = st.sources) ∧
    (∀ (s : V2State) (now : ℚ) (tNow : Nat) (msg : V2Message) (seg : String),
      msg.audioData = some seg →
      (decode seg).bind decodeAudioData = none →
      (onMessageV2 s now tNow msg).2 = true ∧
      (onMessageV2 s now tNow msg).1.session = s.session ∧
      (onMessageV2 s now tNow msg).1.stream = s.stream ∧
      (onMessageV2 s now tNow msg).1.isListening = s.isListening) := by
  refine ⟨playPcmData_none, playPcmData_failed_then, ?_, ?_⟩
  · intro st now seg hdec
    rw [playAudioBytes_none st now seg hdec]
    exact ⟨rfl, rfl⟩
  · intro s now tNow msg seg hmsg hdec
    simp only [onMessageV2, hmsg]
    rw [playAudioBytes_none s.sched now seg hdec]
    exact ⟨rfl, rfl, rfl, rfl⟩

/-- Claim C3 witness: a concrete malformed segment is dropped by playPcmData
with playback continuing, and rejects from playAudioBytes and its onmessage
handler without touching the session. -/
theorem C3_decode_failure_amended_witness :
    playPcmData initSched 0 "%%%" = { initSched with isSpeaking := false } ∧
    playPcmData (playPcmData initSched 0 "%%%") 0 "AAAAAAAA" =
      playPcmData initSched 0 "AAAAAAAA" ∧
    (playAudioBytes ⟨0, []⟩ 0 "%%%").1.sources = [] ∧
    (onMessageV2 activeV2 0 7 ⟨some "%%%", none, none, false, false⟩).2 = true ∧
    (onMessageV2 activeV2 0 7 ⟨some "%%%", none, none, false, false⟩).1.session =
      activeV2.session := by
  obtain ⟨h1, h2, h3, h4⟩ := C3_decode_failure_amended
  refine ⟨h1 initSched 0 "%%%" decode_malformed,
          h2 initSched 0 "%%%" decode_malformed 0 "AAAAAAAA", ?_, ?_, ?_⟩
  · exact (h3 ⟨0, []⟩ 0 "%%%" decode_malformed).2
  · exact (h4 activeV2 0 7 ⟨some "%%%", none, none, false, false⟩ "%%%" rfl
      decode_malformed).1
  · exact (h4 activeV2 0 7 ⟨some "%%%", none, none, false, false⟩ "%%%" rfl
      decode_malformed).2.1

/-- Claim C10: a segment whose decode fails leaves the playback clock and
the active set exactly as they were, and the scheduling of every later
segment is the same as if the failed enqueue had never happened. -/
theorem C10_failed_enqueue_atomic (st : SchedState) (now : ℚ) (seg : String)
    (hdec : (decode seg).bind decodeAudioData = none) :
    (playPcmData st now seg).nextStartTime = st.nextStartTime ∧
    (playPcmData st now seg).sources = st.sources ∧
    ∀ (now2 : ℚ) (seg2 : String),
      playPcmData (playPcmData st now seg) now2 seg2 = playPcmData st now2 seg2 := by
  refine ⟨?_, ?_, playPcmData_failed_then st now seg hdec⟩ <;>
    rw [playPcmData_none st now seg hdec]

/-- Claim C10 witness: a malformed segment enqueued into a mid-session state
does not move the clock or the set, and a following good segment is
scheduled as if the failure had not happened. -/
theorem C10_failed_enqueue_atomic_witness :
    (playPcmData ⟨5, [⟨0, 5⟩], true⟩ 9 "%%%").nextStartTime = 5 ∧
    (playPcmData ⟨5, [⟨0, 5⟩], true⟩ 9 "%%%").sources = [⟨0, 5⟩] ∧
    playPcmData (playPcmData ⟨5, [⟨0, 5⟩], true⟩ 9 "%%%") 9 "AAAAAAAA" =
      playPcmData ⟨5, [⟨0, 5⟩], true⟩ 9 "AAAAAAAA" := by
  obtain ⟨h1, h2, h3⟩ :=
    C10_failed_enqueue_atomic ⟨5, [⟨0, 5⟩], true⟩ 9 "%%%" decode_malformed
  exact ⟨h1, h2, h3 9 "AAAAAAAA"⟩

/-- Claim C4: on a turn-complete signal the accumulated buffer (including the
partial text carried by the same message) is parsed against the three-field
pipe format: a matching buffer yields exactly one voice record whose fields
are the trimmed matched parts, stored and prepended to the history; a
non-matching or empty buffer yields no record and no change to the history
or the last result; the buffer is reset to empty exactly on turn-complete
messages and only accumulates otherwise; the error state is never touched;
and the match succeeds precisely when some three consecutive pipe-separated
parts are all nonempty. -/
theorem C4_turn_complete_parse (s : AppState) (now : ℚ) (tNow : Nat)
    (msg : LiveServerMessage) :
    ((handleLiveMessage s now tNow msg).error = s.error) ∧
    (msg.turnComplete = true →
      (handleLiveMessage s now tNow msg).buffer = "" ∧
      (∀ a b c,
        matchThreeFields (s.buffer ++ msg.outputTranscription.getD "") = some (a, b, c) →
        (handleLiveMessage s now tNow msg).lastResult =
          some ⟨tNow, a.trim, b.trim, c.trim, s.targetLang, tNow, "High", "voice"⟩ ∧
        (handleLiveMessage s now tNow msg).history =
          updateHistory ⟨tNow, a.trim, b.trim, c.trim, s.targetLang, tNow, "High", "voice"⟩
            s.history) ∧
      (matchThreeFields (s.buffer ++ msg.outputTranscription.getD "") = none →
        (handleLiveMessage s now tNow msg).lastResult = s.lastResult ∧
        (handleLiveMessage s now tNow msg).history = s.history)) ∧
    (msg.turnComplete = false →
      (handleLiveMessage s now tNow msg).buffer =
        s.buffer ++ msg.outputTranscription.getD "") ∧
    ((matchThreeFields (s.buffer ++ msg.outputTranscription.getD "")).isSome ↔
      ∃ i a b c,
        (splitOnPipe (s.buffer ++ msg.outputTranscription.getD "")).get? i = some a ∧
        (splitOnPipe (s.buffer ++ msg.outputTranscription.getD "")).get? (i + 1) = some b ∧
        (splitOnPipe (s.buffer ++ msg.outputTranscription.getD "")).get? (i + 2) = some c ∧
        a ≠ "" ∧ b ≠ "" ∧ c ≠ "") := by
  refine ⟨?_,
    fun h => ⟨handleLiveMessage_turn_buffer s now tNow msg h,
      fun a b c hm => handleLiveMessage_turn_some s now tNow msg h a b c hm,
      fun hm => handleLiveMessage_turn_none s now tNow msg h hm⟩,
    handleLiveMessage_noturn_buffer s now tNow msg,
    firstTriple_spec _⟩
  obtain ⟨sch, lr, hist, buf, hEq⟩ := handleLiveMessage_eqd s now tNow msg
  rw [hEq]

/-- Claim C4 witness: a two-part accumulated buffer parses into one trimmed
record, while an unparseable buffer and an empty buffer yield no record. -/
theorem C4_turn_complete_parse_witness :
    (handleLiveMessage { idleApp with buffer := "Fr | bonjour " } 0 7
        ⟨none, some "| hello", true, false⟩).buffer = "" ∧
    (handleLiveMessage { idleApp with buffer := "Fr | bonjour " } 0 7
        ⟨none, some "| hello", true, false⟩).lastResult =
      some ⟨7, "Fr ".trim, " bonjour ".trim, " hello".trim, "English", 7, "High", "voice"⟩ ∧
    (handleLiveMessage { idleApp with buffer := "AB" } 0 7
        ⟨none, none, true, false⟩).lastResult = none ∧
    (handleLiveMessage { idleApp with buffer := "AB" } 0 7
        ⟨none, none, true, false⟩).history = [] ∧
    (handleLiveMessage idleApp 0 7 ⟨none, none, true, false⟩).lastResult = none := by
  have h1 := C4_turn_complete_parse { idleApp with buffer := "Fr | bonjour " } 0 7
    ⟨none, some "| hello", true, false⟩
  have h2 := C4_turn_complete_parse { idleApp with buffer := "AB" } 0 7
    ⟨none, none, true, false⟩
  have h3 := C4_turn_complete_parse idleApp 0 7 ⟨none, none, true, false⟩
  obtain ⟨-, h1t, -, -⟩ := h1
  obtain ⟨h1b, h1s, -⟩ := h1t rfl
  obtain ⟨-, h2t, -, -⟩ := h2
  obtain ⟨-, -, h2n⟩ := h2t rfl
  obtain ⟨-, h3t, -, -⟩ := h3
  obtain ⟨-, -, h3n⟩ := h3t rfl
  refine ⟨h1b, ?_, ?_, ?_, ?_⟩
  · exact (h1s "Fr " " bonjour " " hello" (by decide)).1
  · exact ((h2n (by decide)).1).trans rfl
  · exact ((h2n (by decide)).2).trans rfl
  · exact ((h3n (by decide)).1).trans rfl

/-- Claim C5: stopping is idempotent in both variants: a second stop on an
already-stopped state is exactly the same state, every resource handle ends
nulled, and the state ends not listening. Each teardown step in the source
is guarded on its ref (and the session close additionally wrapped), so the
embedded teardown is total: no step can raise. -/
theorem C5_stop_idempotent :
    (∀ s : AppState,
      stopListening (stopListening s) = stopListening s ∧
      (stopListening s).isListening = false ∧
      (stopListening s).session = none ∧
      (stopListening s).stream = none ∧
      (stopListening s).inputCtx = none) ∧
    (∀ s : V2State,
      stopSession (stopSession s) = stopSession s ∧
      (stopSession s).isListening = false ∧
      (stopSession s).session = none ∧
      (stopSession s).stream = none ∧
      (stopSession s).inputCtx = none ∧
      (stopSession s).outputCtx = none ∧
      (stopSession s).sched.sources = []) := by
  exact ⟨fun s => ⟨rfl, rfl, rfl, rfl, rfl⟩, fun s => ⟨rfl, rfl, rfl, rfl, rfl, rfl, rfl⟩⟩

/-- Claim C6 counterexample: startListening invoked on a state with a live
session is not a no-op and has side effects: it stores a second microphone
stream handle while the first one was live. -/
theorem C6_start_guard_counterexample :
    startListening activeApp true 10 11 12 ≠ activeApp ∧
    (startListening activeApp true 10 11 12).stream = some 10 ∧
    activeApp.stream = some 1 ∧
    activeApp.isListening = true := by
  refine ⟨?_, rfl, rfl, rfl⟩
  intro h
  have h10 : (startListening activeApp true 10 11 12).stream = some 10 := rfl
  rw [h] at h10
  exact absurd h10 (by decide)

/-- Claim C6 amended: the only call sites of start, the mic button of
variant 1 and toggleListening of variant 2, invoke stop rather than start
whenever a session is live, so no second capture pipeline is started through
the UI; the start functions themselves perform no Idle check. -/
theorem C6_toggle_guard_amended :
    (∀ (s : AppState) (micOk : Bool) (streamId ctxId sessId : Nat),
      s.isListening = true →
      toggleMicButton s micOk streamId ctxId sessId = stopListening s) ∧
    (∀ (s : V2State) (micOk : Bool) (streamId inCtxId outCtxId sessId : Nat),
      s.isListening = true →
      toggleListening s micOk streamId inCtxId outCtxId sessId = stopSession s) := by
  constructor
  · intro s micOk a b c h
    simp [toggleMicButton, h]
  · intro s micOk a b c d h
    simp [toggleListening, h]

/-- Claim C6 witness: the toggles on concrete live states resolve to the
stop functions. -/
theorem C6_toggle_guard_amended_witness :
    toggleMicButton activeApp true 10 11 12 = stopListening activeApp ∧
    toggleListening activeV2 true 10 11 12 13 = stopSession activeV2 := by
  exact ⟨C6_toggle_guard_amended.1 activeApp true 10 11 12 rfl,
         C6_toggle_guard_amended.2 activeV2 true 10 11 12 13 rfl⟩

/-- Claim C7: every history write prepends the new record and truncates to
the cap of ten, so the list stays most-recent-first with length at most ten;
writing into a full list evicts exactly the oldest entry and keeps length
ten; and loading persisted history also truncates to ten. -/
theorem C7_history_cap (e : ExtendedDiscoveryEntry)
    (prev saved : List ExtendedDiscoveryEntry) :
    (updateHistory e prev).length ≤ 10 ∧
    (updateHistory e prev).head? = some e ∧
    (loadHistory saved).length ≤ 10 ∧
    (prev.length = 10 →
      updateHistory e prev = e :: prev.dropLast ∧
      (updateHistory e prev).length = 10) := by
  refine ⟨?_, ?_, ?_, fun h => ⟨?_, ?_⟩⟩
  · simpa [updateHistory] using (e :: prev).length_take_le 10
  · show ((e :: prev).take 10).head? = some e
    rw [show (10 : Nat) = 9 + 1 from rfl, List.take_succ_cons, List.head?_cons]
  · simpa [loadHistory] using saved.length_take_le 10
  · show (e :: prev).take 10 = e :: prev.dropLast
    rw [show (10 : Nat) = 9 + 1 from rfl, List.take_succ_cons, List.dropLast_eq_take, h]
  · show ((e :: prev).take 10).length = 10
    rw [List.length_take]
    simp [h]

/-- Claim C7 witness: writing an eleventh record into a full ten-record
history keeps length ten and drops the last entry. -/
theorem C7_history_cap_witness :
    (updateHistory ⟨10, "L", "s", "t", "E", 10, "High", "text"⟩
        ((List.range 10).map (fun n => ⟨n, "L", "s", "t", "E", n, "High", "text"⟩))).length
      = 10 ∧
    updateHistory ⟨10, "L", "s", "t", "E", 10, "High", "text"⟩
        ((List.range 10).map (fun n => ⟨n, "L", "s", "t", "E", n, "High", "text"⟩)) =
      ⟨10, "L", "s", "t", "E", 10, "High", "text"⟩ ::
        ((List.range 10).map (fun n => ⟨n, "L", "s", "t", "E", n, "High", "text"⟩)).dropLast := by
  have h := C7_history_cap ⟨10, "L", "s", "t", "E", 10, "High", "text"⟩
    ((List.range 10).map (fun n => ⟨n, "L", "s", "t", "E", n, "High", "text"⟩)) []
  obtain ⟨-, -, -, hcap⟩ := h
  obtain ⟨h1, h2⟩ := hcap (by simp)
  exact ⟨h2, h1⟩

/-- The interruption branch resets the variant-1 scheduler. -/
theorem handleLiveMessage_interrupted_sched (s : AppState) (now : ℚ) (tNow : Nat)
    (msg : LiveServerMessage) (h : msg.interrupted = true) :
    (handleLiveMessage s now tNow msg).sched = ⟨0, [], false⟩ := by
  obtain ⟨ad, ot, tc, ir⟩ := msg
  cases ir with
  | false => simp at h
  | true =>
    cases ad <;> cases ot <;> cases tc <;>
      simp only [handleLiveMessage, applyAudio, applyTranscription, applyTurnComplete,
        stopAllAudio] <;>
      (repeat' split) <;> simp_all

set_option maxHeartbeats 2000000 in
/-- The variant-2 onmessage handler changes at most the scheduler, the
transcription list, the two buffers and the detected language. -/
theorem onMessageV2_eqd (v : V2State) (now : ℚ) (tNow : Nat) (vmsg : V2Message) :
    ∃ sch tr ib ob dl,
      (onMessageV2 v now tNow vmsg).1 =
        { v with sched := sch, transcriptions := tr, inBuf := ib, outBuf := ob,
                 detectedLanguage := dl } := by
  obtain ⟨ad, it, ot, tc, ir⟩ := vmsg
  cases ad <;> cases it <;> cases ot <;> cases tc <;> cases ir <;>
    simp only [onMessageV2, onMessageV2Tail, applyInputTr, applyOutputTr, applyTurnV2] <;>
    (repeat' split) <;>
    exact ⟨_, _, _, _, _, rfl⟩

/-- When the variant-2 handler processes an interruption without rejecting,
the scheduler ends cleared with the clock at zero. -/
theorem onMessageV2_interrupted_sched (v : V2State) (now : ℚ) (tNow : Nat)
    (vmsg : V2Message) (h : vmsg.interrupted = true)
    (hok : (onMessageV2 v now tNow vmsg).2 = false) :
    (onMessageV2 v now tNow vmsg).1.sched = ⟨0, []⟩ := by
  obtain ⟨ad, it, ot, tc, ir⟩ := vmsg
  cases ir with
  | false => simp at h
  | true =>
    cases ad with
    | none =>
      cases it <;> cases ot <;> cases tc <;>
        simp only [onMessageV2, onMessageV2Tail, applyInputTr, applyOutputTr, applyTurnV2] <;>
        (repeat' split) <;> simp_all
    | some b64 =>
      rcases hpa : playAudioBytes v.sched now b64 with ⟨sch, thr⟩
      cases thr with
      | true =>
        exfalso
        simp [onMessageV2, hpa] at hok
      | false =>
        cases it <;> cases ot <;> cases tc <;>
          simp only [onMessageV2, onMessageV2Tail, applyInputTr, applyOutputTr, applyTurnV2,
            hpa] <;>
          (repeat' split) <;> simp_all

/-- Claim C8: processing any live message, in either variant, leaves the
whole capture path untouched: the microphone stream, the input context, the
remote session, the listening state, the animation frame and the error; and
a message carrying the interruption signal leaves the playback scheduler
stopped and cleared with the clock at zero. -/
theorem C8_interrupted_cancels_playback_only (s : AppState) (now : ℚ) (tNow : Nat)
    (msg : LiveServerMessage) (v : V2State) (vmsg : V2Message) :
    ((handleLiveMessage s now tNow msg).stream = s.stream ∧
     (handleLiveMessage s now tNow msg).inputCtx = s.inputCtx ∧
     (handleLiveMessage s now tNow msg).session = s.session ∧
     (handleLiveMessage s now tNow msg).isListening = s.isListening ∧
     (handleLiveMessage s now tNow msg).animFrame = s.animFrame ∧
     (handleLiveMessage s now tNow msg).error = s.error) ∧
    (msg.interrupted = true →
      (handleLiveMessage s now tNow msg).sched = ⟨0, [], false⟩) ∧
    ((onMessageV2 v now tNow vmsg).1.stream = v.stream ∧
     (onMessageV2 v now tNow vmsg).1.inputCtx = v.inputCtx ∧
     (onMessageV2 v now tNow vmsg).1.outputCtx = v.outputCtx ∧
     (onMessageV2 v now tNow vmsg).1.session = v.session ∧
     (onMessageV2 v now tNow vmsg).1.isListening = v.isListening ∧
     (onMessageV2 v now tNow vmsg).1.animFrame = v.animFrame ∧
     (onMessageV2 v now tNow vmsg).1.error = v.error) ∧
    (vmsg.interrupted = true → (onMessageV2 v now tNow vmsg).2 = false →
      (onMessageV2 v now tNow vmsg).1.sched = ⟨0, []⟩) := by
  refine ⟨?_, handleLiveMessage_interrupted_sched s now tNow msg, ?_,
    onMessageV2_interrupted_sched v now tNow vmsg⟩
  · obtain ⟨sch, lr, hist, buf, hEq⟩ := handleLiveMessage_eqd s now tNow msg
    rw [hEq]
    exact ⟨rfl, rfl, rfl, rfl, rfl, rfl⟩
  · obtain ⟨sch, tr, ib, ob, dl, hEq⟩ := onMessageV2_eqd v now tNow vmsg
    rw [hEq]
    exact ⟨rfl, rfl, rfl, rfl, rfl, rfl, rfl⟩

/-- Claim C8 witness: an interruption message processed on live states with
pending playback clears the scheduler and leaves capture untouched. -/
theorem C8_interrupted_cancels_playback_only_witness :
    (handleLiveMessage { activeApp with sched := ⟨5, [⟨0, 5⟩], true⟩ } 0 7
        ⟨none, none, false, true⟩).stream = activeApp.stream ∧
    (handleLiveMessage { activeApp with sched := ⟨5, [⟨0, 5⟩], true⟩ } 0 7
        ⟨none, none, false, true⟩).isListening = activeApp.isListening ∧
    (handleLiveMessage { activeApp with sched := ⟨5, [⟨0, 5⟩], true⟩ } 0 7
        ⟨none, none, false, true⟩).sched = ⟨0, [], false⟩ ∧
    (onMessageV2 { activeV2 with sched := ⟨5, [⟨0, 5⟩]⟩ } 0 7
        ⟨none, none, none, false, true⟩).1.stream = activeV2.stream ∧
    (onMessageV2 { activeV2 with sched := ⟨5, [⟨0, 5⟩]⟩ } 0 7
        ⟨none, none, none, false, true⟩).1.sched = ⟨0, []⟩ := by
  obtain ⟨⟨f1, -, -, f4, -, -⟩, hint, ⟨g1, -, -, -, -, -, -⟩, hint2⟩ :=
    C8_interrupted_cancels_playback_only
      { activeApp with sched := ⟨5, [⟨0, 5⟩], true⟩ } 0 7 ⟨none, none, false, true⟩
      { activeV2 with sched := ⟨5, [⟨0, 5⟩]⟩ } ⟨none, none, none, false, true⟩
  exact ⟨f1, f4, hint rfl, g1, hint2 rfl rfl⟩

/-- Iterated capture characterized: one encoded frame per input frame, sends
exactly the accepted ones in order, no error, no queue. -/
theorem captureRun_spec (frames : List (List ℚ × Bool)) (st : CaptureState) :
    captureRun st frames =
      { st with
        encoded := st.encoded ++ frames.map (fun p => createBlob p.1)
        sent := st.sent ++ (frames.filter (fun p => p.2)).map (fun p => createBlob p.1) } := by
  induction frames generalizing st with
  | nil => simp [captureRun]
  | cons p rest ih =>
    obtain ⟨frame, ok⟩ := p
    cases ok <;>
      simp [captureRun, onAudioProcess, ih, List.filter_cons]

/-- Claim C9: over any run of delivered frames the encoder produces exactly
one encoded frame per input frame, the transport receives exactly the frames
it accepted in order, every rejected-or-not-ready send leaves no trace: no
surfaced error and no retry queue. -/
theorem C9_one_frame_per_frame_dropped_sends (frames : List (List ℚ × Bool)) :
    (captureRun emptyCapture frames).encoded = frames.map (fun p => createBlob p.1) ∧
    (captureRun emptyCapture frames).encoded.length = frames.length ∧
    (captureRun emptyCapture frames).sent =
      (frames.filter (fun p => p.2)).map (fun p => createBlob p.1) ∧
    (captureRun emptyCapture frames).surfacedError = none ∧
    (captureRun emptyCapture frames).retryQueue = [] := by
  rw [captureRun_spec]
  exact ⟨by simp [emptyCapture], by simp [emptyCapture], by simp [emptyCapture], rfl, rfl⟩
